import Mathlib

/-
Formal model of the worlddashboard-data risk pipeline.

Sources embedded here:
  scripts/fetch_gdelt.py     (event aggregation: `process`)
  scripts/run_kodoku_engine.py  (gravity propagation and route survival)

Numeric idealization: Python floats are modelled as exact rationals; Python
round(x, n) is modelled as round-half-to-even on rationals (pyRound below).
-/

namespace WorldDashboard

/-- Round-half-to-even on rationals, the tie-breaking rule of Python round().
Returns the nearest integer; on a tie (fractional part exactly 1/2) it picks
the even neighbour. -/
def roundHalfEven (x : ℚ) : ℤ :=
  if x - ⌊x⌋ < 1/2 then ⌊x⌋
  else if 1/2 < x - ⌊x⌋ then ⌊x⌋ + 1
  else if Even ⌊x⌋ then ⌊x⌋ else ⌊x⌋ + 1

/-- Model of Python round(x, n) on the rational idealization of floats. -/
def pyRound (x : ℚ) (n : ℕ) : ℚ := (roundHalfEven (x * 10 ^ n) : ℚ) / 10 ^ n

/-- Model of Python max(xs, key=key) over a nonempty list x :: xs: the first
element attaining the maximal key (Python max replaces the current best only
on strictly greater key). pandas sort_values(descending).groupby.first()
selects the same element when ties keep their first-seen order. -/
def pickFirstMax {α : Type} (key : α → ℚ) (x : α) (xs : List α) : α :=
  xs.foldl (fun b y => if key b < key y then y else b) x

/-!
Embedding of scripts/fetch_gdelt.py, function `process` (lines 162-218).

A raw event row carries the five columns `process` keeps. The three numeric
columns are shown after the coercion pd.to_numeric(errors="coerce"): `none`
models a NaN, i.e. a missing or non-numeric cell; `some q` a numeric cell.
The country code and the source URL are the string cells of the row (GDELT
event rows always carry them as strings; compare spec section 6).
-/

structure RawRow where
  actor1GeoCountryCode : String
  quadClass : Option ℚ
  eventRootCode : Option ℚ
  goldsteinScale : Option ℚ
  sourceUrl : String
deriving DecidableEq

/-- Conflict filter (line 174): (df.QuadClass == 4) | (df.EventRootCode == 14).
A NaN cell compares unequal to the sentinel, so `none` never matches. -/
def conflictKeep (r : RawRow) : Bool :=
  r.quadClass == some 4 || r.eventRootCode == some 14

/-- Model of Python str.strip(): drop whitespace from both ends. -/
def stripStr (s : String) : String :=
  ⟨((s.data.dropWhile Char.isWhitespace).reverse.dropWhile Char.isWhitespace).reverse⟩

/-- FIPS_TO_ISO3 as the ordered sequence of key bindings the script executes:
the dict literal of lines 47-78 (with its duplicated keys AU and BO kept in
literal order), then the two explicit assignments of lines 81-82, then the
update of lines 85-98. Python dict semantics is last-binding-wins, which
`dictGet` below models by searching the reversed sequence. -/
def FIPS_TO_ISO3_entries : List (String × String) :=
  [("US", "USA"), ("CH", "CHN"), ("JA", "JPN"), ("RS", "RUS"), ("GM", "DEU"),
   ("FR", "FRA"), ("UK", "GBR"), ("IT", "ITA"), ("SP", "ESP"), ("PO", "PRT"),
   ("AU", "AUS"), ("CA", "CAN"), ("MX", "MEX"), ("BR", "BRA"), ("AR", "ARG"),
   ("IN", "IND"), ("PK", "PAK"), ("AF", "AFG"), ("IZ", "IRQ"), ("IR", "IRN"),
   ("SY", "SYR"), ("IS", "ISR"), ("JO", "JOR"), ("LE", "LBN"), ("SA", "SAU"),
   ("AE", "ARE"), ("QA", "QAT"), ("KU", "KWT"), ("BA", "BHR"), ("YM", "YEM"),
   ("TU", "TUR"), ("EG", "EGY"), ("LY", "LBY"), ("TS", "TUN"), ("MO", "MAR"),
   ("AG", "DZA"), ("SU", "SDN"), ("ET", "ETH"), ("KE", "KEN"), ("SO", "SOM"),
   ("NI", "NGA"), ("GH", "GHA"), ("SG", "SEN"), ("ML", "MLI"), ("IV", "CIV"),
   ("ZI", "ZWE"), ("ZA", "ZAF"), ("AO", "AGO"), ("MZ", "MOZ"), ("TZ", "TZA"),
   ("UG", "UGA"), ("RW", "RWA"), ("CG", "COD"), ("CF", "CAF"), ("CM", "CMR"),
   ("GA", "GAB"), ("SE", "SWE"), ("NO", "NOR"), ("FI", "FIN"), ("DA", "DNK"),
   ("NL", "NLD"), ("BE", "BEL"), ("SW", "CHE"), ("AU", "AUT"), ("PL", "POL"),
   ("EZ", "CZE"), ("LO", "SVK"), ("HU", "HUN"), ("RO", "ROU"), ("BU", "BGR"),
   ("GR", "GRC"), ("AL", "ALB"), ("HR", "HRV"), ("BO", "BIH"), ("SR", "SRB"),
   ("MK", "MKD"), ("SI", "SVN"), ("LH", "LTU"), ("LG", "LVA"), ("EN", "EST"),
   ("MD", "MDA"), ("UP", "UKR"), ("BY", "BLR"), ("GG", "GEO"), ("AM", "ARM"),
   ("AJ", "AZE"), ("KZ", "KAZ"), ("UZ", "UZB"), ("TM", "TKM"), ("KG", "KGZ"),
   ("TI", "TJK"), ("MN", "MNG"), ("KS", "KOR"), ("KN", "PRK"), ("TW", "TWN"),
   ("VM", "VNM"), ("TH", "THA"), ("MY", "MYS"), ("SN", "SGP"), ("PH", "PHL"),
   ("ID", "IDN"), ("BM", "MMR"), ("CB", "KHM"), ("LA", "LAO"), ("NP", "NPL"),
   ("BG", "BGD"), ("CE", "LKA"), ("MV", "MDV"), ("BT", "BTN"),
   ("NZ", "NZL"), ("FJ", "FJI"), ("PP", "PNG"),
   ("CU", "CUB"), ("CO", "COL"), ("VE", "VEN"), ("PE", "PER"), ("CI", "CHL"),
   ("BO", "BOL"), ("EC", "ECU"), ("UY", "URY"), ("PY", "PRY"),
   ("GT", "GTM"), ("HO", "HND"), ("ES", "SLV"), ("NU", "NIC"), ("CS", "CRI"),
   ("PM", "PAN"), ("BH", "BLZ"), ("JM", "JAM"), ("TD", "TTO"), ("DR", "DOM"),
   ("HA", "HTI"), ("CJ", "CYM"),
   ("IC", "ISL"), ("LU", "LUX"), ("MT", "MLT"), ("CY", "CYP"),
   ("MU", "MUS"), ("MP", "COM"), ("SC", "SYC"), ("CV", "CPV"),
   ("AS", "AUS"), ("AU", "AUT"),
   ("UV", "BFA"), ("NG", "NER"), ("CD", "TCD"), ("BY", "BDI"), ("OD", "SSD"),
   ("GY", "GUY"), ("NS", "SUR"), ("MU", "OMN"), ("BX", "BRN"), ("TT", "TLS"),
   ("GZ", "PSE"), ("WE", "PSE")]

/-- Lookup in a Python dict built by binding the keys in sequence:
the last binding of a key wins. -/
def dictGet (l : List (String × String)) (k : String) : Option String :=
  (l.reverse.find? (fun p => p.1 == k)).map (fun p => p.2)

/-- TARGET_ISO3 (lines 103-116). -/
def TARGET_ISO3 : List String :=
  ["EGY", "ZAF", "NGA", "KEN", "ETH", "SDN", "COD", "SOM", "LBY", "MLI",
   "BFA", "NER", "TCD", "MOZ", "CAF", "CMR", "BDI", "SSD", "ZWE", "AGO",
   "SAU", "IRN", "IRQ", "ISR", "JOR", "LBN", "SYR", "YEM", "ARE", "QAT",
   "KWT", "OMN", "BHR", "TUR", "PSE",
   "IDN", "MYS", "PHL", "SGP", "THA", "VNM", "KHM", "LAO", "MMR", "BRN",
   "TLS", "TWN",
   "BRA", "ARG", "COL", "PER", "VEN", "CHL", "ECU", "BOL", "PRY", "URY",
   "GUY", "SUR"]

/-- Row of the frame after the filter chain of lines 174-187: normalized
country code, BaseScore = abs(GoldsteinScale) (`none` for a NaN severity,
since abs propagates NaN), and the source URL. -/
structure Survivor where
  iso3 : String
  baseScore : Option ℚ
  url : String
deriving DecidableEq

/-- One row through the filter chain of `process` (lines 174-187): conflict
filter, non-blank country code, FIPS to ISO3 normalization (rows without a
mapping are dropped), target-region restriction. -/
def survivorOf (r : RawRow) : Option Survivor :=
  if conflictKeep r && (stripStr r.actor1GeoCountryCode != "") then
    match dictGet FIPS_TO_ISO3_entries (stripStr r.actor1GeoCountryCode) with
    | none => none
    | some iso3 =>
      if TARGET_ISO3.contains iso3 then
        some { iso3 := iso3, baseScore := r.goldsteinScale.map abs, url := r.sourceUrl }
      else none
  else none

def survivors (rows : List RawRow) : List Survivor :=
  rows.filterMap survivorOf

/-- The group of surviving rows of one normalized country code. -/
def groupOf (rows : List RawRow) (k : String) : List Survivor :=
  (survivors rows).filter (fun s => s.iso3 == k)

/-- risk_score of a group before rounding (line 199): sum of BaseScore over
the group divided by 10. pandas Series.sum skips NaN entries, hence the
missing scores contribute 0. -/
def groupRisk (rows : List RawRow) (k : String) : ℚ :=
  ((groupOf rows k).map (fun s => s.baseScore.getD 0)).sum / 10

/-- Rows of a group usable for top_news (line 190): dropna on BaseScore.
The SOURCEURL dropna of the same line is vacuous here because the URL cell
is modelled as a string. -/
def validOf (g : List Survivor) : List Survivor :=
  g.filter (fun s => s.baseScore.isSome)

/-- Contract of sort_values by BaseScore descending with the default sort
kind (lines 191-192): some permutation of the rows ordered by non-increasing
BaseScore. pandas documents a stable tie order only for the mergesort and
stable kinds, so the relative order of rows with tied BaseScores is
unspecified by the program. -/
def IsDescSortOf (g sorted : List Survivor) : Prop :=
  g.Perm sorted ∧
    sorted.Sorted (fun a b => b.baseScore.getD 0 ≤ a.baseScore.getD 0)

/-- groupby.first applied to one already-sorted group (lines 193-195): the
URL of its first row, the empty string when the group is empty. -/
def topNewsOfSorted (sorted : List Survivor) : String :=
  match sorted with
  | [] => ""
  | r :: _ => r.url

/-- top_news of a group (lines 191-195, 203-204): sort by BaseScore
descending, take the first URL of the group, empty string when no row of the
group has a BaseScore. The script sorts with the default kind, whose tie
order is unspecified (see IsDescSortOf); to keep the pipeline a function
this definition fixes one admissible tie order, first-seen, under which the
selected row is the first one attaining the maximal BaseScore, computed by
pickFirstMax. Properties that depend on the tie order are settled against
the IsDescSortOf contract, not against this choice. -/
def topNewsOf (g : List Survivor) : String :=
  match validOf g with
  | [] => ""
  | r :: rs => (pickFirstMax (fun s => s.baseScore.getD 0) r rs).url

/-- The emitted per-country record (lines 211-215). -/
structure CountryRecord where
  risk_score : ℚ
  count : ℕ
  top_news : String
deriving DecidableEq

/-- The record `process` emits for one country code: the threshold of line
207 is applied to the unrounded score, the emitted score is rounded to 4
decimals (line 212). `none` when the country is cut or absent. -/
def processCountry (rows : List RawRow) (k : String) : Option CountryRecord :=
  if 2 ≤ groupRisk rows k then
    some { risk_score := pyRound (groupRisk rows k) 4,
           count := (groupOf rows k).length,
           top_news := topNewsOf (groupOf rows k) }
  else none

/-- Full result of `process` as an association list keyed by ISO3 code. The
iteration order of the groupby result (pandas sorts group keys) is modelled
by the dedup order of the surviving keys; no property below depends on it. -/
def process (rows : List RawRow) : List (String × CountryRecord) :=
  ((survivors rows).map (fun s => s.iso3)).dedup.filterMap
    (fun k => (processCountry rows k).map (fun rec => (k, rec)))

/-- A JSON scalar of the emitted record. -/
inductive JVal where
  | num (q : ℚ)
  | intv (n : ℕ)
  | strv (s : String)
deriving DecidableEq

/-- The dict literal written per country at lines 211-215: exactly the three
keys risk_score, count, top_news. -/
def recordFields (rec : CountryRecord) : List (String × JVal) :=
  [("risk_score", JVal.num rec.risk_score),
   ("count", JVal.intv rec.count),
   ("top_news", JVal.strv rec.top_news)]

/-- The emitted JSON object of `process`: country code to field list. -/
def processJson (rows : List RawRow) : List (String × List (String × JVal)) :=
  (process rows).map (fun p => (p.1, recordFields p.2))

/-!
Embedding of scripts/run_kodoku_engine.py.

haversine_km (lines 116-126) composes transcendental float functions (sin,
cos, atan2, sqrt); everything downstream of the distance is exact rational
arithmetic. The engine is therefore parameterized by the function
`dist : chokepoint id -> ISO3 code -> Option rational` that stands for the
composition of the COUNTRY_CENTROIDS lookup (lines 82-107, 155-157) with
haversine_km of the chokepoint coordinates: `none` models a country absent
from COUNTRY_CENTROIDS (skipped, line 156-157), `some d` the great-circle
distance in km. All properties below are proved for every such function, so
in particular for the Haversine instance of the script.
-/

structure ChokePoint where
  id : String
  name : String
  lon : ℚ
  lat : ℚ
  kind : String
  riskLevel : String
deriving DecidableEq

/-- CHOKE_POINTS (lines 28-37). -/
def CHOKE_POINTS : List ChokePoint :=
  [{ id := "hormuz", name := "Strait of Hormuz", lon := 56.48, lat := 26.56,
     kind := "energy", riskLevel := "high" },
   { id := "malacca", name := "Strait of Malacca", lon := 100.0, lat := 4.0,
     kind := "trade", riskLevel := "medium" },
   { id := "suez", name := "Suez Canal", lon := 32.35, lat := 30.60,
     kind := "trade", riskLevel := "high" },
   { id := "bab_el_mandeb", name := "Bab-el-Mandeb", lon := 43.32, lat := 12.58,
     kind := "energy", riskLevel := "high" },
   { id := "panama", name := "Panama Canal", lon := -79.91, lat := 9.08,
     kind := "trade", riskLevel := "low" },
   { id := "taiwan", name := "Taiwan Strait", lon := 119.5, lat := 24.5,
     kind := "trade", riskLevel := "high" },
   { id := "bosporus", name := "Bosporus Strait", lon := 29.07, lat := 41.02,
     kind := "trade", riskLevel := "medium" },
   { id := "cape_of_good_hope", name := "Cape of Good Hope", lon := 18.47, lat := -34.35,
     kind := "trade", riskLevel := "low" }]

structure Route where
  id : String
  name : String
  chokepoints : List String
deriving DecidableEq

/-- ROUTES (lines 45-76). -/
def ROUTES : List Route :=
  [{ id := "middle_east_to_japan", name := "Energy Route (Middle East - Japan)",
     chokepoints := ["hormuz", "malacca", "taiwan"] },
   { id := "middle_east_to_europe", name := "Energy Route (Middle East - Europe)",
     chokepoints := ["hormuz", "bab_el_mandeb", "suez"] },
   { id := "asia_to_europe_suez", name := "Trade Route (Asia - Europe via Suez)",
     chokepoints := ["malacca", "bab_el_mandeb", "suez"] },
   { id := "asia_to_europe_cape", name := "Trade Route (Asia - Europe via Cape)",
     chokepoints := ["malacca", "cape_of_good_hope"] },
   { id := "americas_to_asia", name := "Trade Route (Americas - Asia)",
     chokepoints := ["panama", "taiwan"] },
   { id := "black_sea_to_mediterranean", name := "Trade Route (Black Sea - Mediterranean)",
     chokepoints := ["bosporus", "suez"] }]

/-- The ids of the eight registered chokepoints, in registry order. -/
def REGISTERED_CP_IDS : List String :=
  ["hormuz", "malacca", "suez", "bab_el_mandeb", "panama", "taiwan",
   "bosporus", "cape_of_good_hope"]

/-- Context signature a V2 risk record may carry: the per-country histogram
of root event codes and the keyword list. `event_codes = none` models a
legacy record without the key. -/
structure CountryCtx where
  event_codes : Option (List (String × ℕ))
  keywords : List String
deriving DecidableEq

/-- Modelled from the spec: MARITIME_KEYWORDS is imported by
tests/test_kodoku_engine.py but absent from scripts/run_kodoku_engine.py.
Spec section 4.2 names the vocabulary as terms evoking strait, canal,
tanker, missile and naval-military action, with examples canal, strait,
missile, tanker; the tests require canal, strait and missile to be members. -/
def MARITIME_KEYWORDS : List String :=
  ["canal", "strait", "missile", "tanker", "naval"]

/-- Modelled from the spec: weight of the internal_unrest fingerprint of
HISTORICAL_CRISES (spec section 4.2 rule a; tests require 0.1). -/
def internalUnrestWeight : ℚ := 1/10

/-- Modelled from the spec: weight of the suez_blockade fingerprint of
HISTORICAL_CRISES (spec section 4.2 rule b; tests require 2.0). -/
def suezBlockadeWeight : ℚ := 2

/-- Total number of event code occurrences of a histogram. -/
def totalOf (codes : List (String × ℕ)) : ℕ :=
  (codes.map (fun p => p.2)).sum

/-- Occurrences of the protest root code 14 in a histogram. -/
def protestOf (codes : List (String × ℕ)) : ℕ :=
  ((codes.filter (fun p => p.1 == "14")).map (fun p => p.2)).sum

/-- Occurrences of the military root code 19 in a histogram. -/
def militaryOf (codes : List (String × ℕ)) : ℕ :=
  ((codes.filter (fun p => p.1 == "19")).map (fun p => p.2)).sum

/-- Whether any keyword of the record is in the maritime vocabulary. -/
def hasMaritimeKw (c : CountryCtx) : Bool :=
  c.keywords.any (fun w => MARITIME_KEYWORDS.contains w)

/-- Modelled from the spec: compute_context_multiplier is imported and
exercised by tests/test_kodoku_engine.py but absent from
scripts/run_kodoku_engine.py. Spec section 4.2, first match wins:
absent or empty event_codes gives 1.0; protest fraction above 1/2 with no
maritime keyword gives the internal_unrest weight 0.1; military root code 19
present together with a maritime keyword gives the suez_blockade weight 2.0;
every other mix is neutral 1.0. A protest fraction above 1/2 is stated as
2 * protest > total to stay in integer arithmetic. -/
def compute_context_multiplier (c : CountryCtx) : ℚ :=
  match c.event_codes with
  | none => 1
  | some codes =>
    if totalOf codes = 0 then 1
    else if totalOf codes < 2 * protestOf codes ∧ hasMaritimeKw c = false then
      internalUnrestWeight
    else if 0 < militaryOf codes ∧ hasMaritimeKw c = true then
      suezBlockadeWeight
    else 1

/-- One entry of the risk_data mapping the engine loads (the value under one
ISO3 key of daily_risk_score.json). compute_chokepoint_disruption reads only
risk_score (line 164); the context signature that V2 records and the test
inputs carry is kept so that context properties can be stated, and is
ignored by the engine of the script. -/
structure RiskEntry where
  risk_score : ℚ
  ctx : CountryCtx
deriving DecidableEq

/-- INFLUENCE_RADIUS_KM (line 112). -/
def INFLUENCE_RADIUS_KM : ℚ := 1500

/-- NORMALIZATION_DIVISOR (line 113). -/
def NORMALIZATION_DIVISOR : ℚ := 30

/-- Contribution of one country entry to one chokepoint (lines 154-164):
skip when no centroid; inside the influence radius the risk score is scaled
by the linear decay (1500 - d) / 1500, outside it contributes nothing. -/
def contribution (dist : String → String → Option ℚ) (cp : ChokePoint)
    (p : String × RiskEntry) : ℚ :=
  match dist cp.id p.1 with
  | none => 0
  | some d =>
    if d < INFLUENCE_RADIUS_KM then
      p.2.risk_score * ((INFLUENCE_RADIUS_KM - d) / INFLUENCE_RADIUS_KM)
    else 0

/-- crisis_score of one chokepoint (lines 152-164): sum of the contributions
over the risk_data entries. -/
def crisisScore (dist : String → String → Option ℚ)
    (riskData : List (String × RiskEntry)) (cp : ChokePoint) : ℚ :=
  (riskData.map (contribution dist cp)).sum

/-- disruption_risk of one chokepoint (lines 166-167):
min(max(crisis / 30 * 100, 0), 100) rounded to 1 decimal. -/
def disruptionRisk (dist : String → String → Option ℚ)
    (riskData : List (String × RiskEntry)) (cp : ChokePoint) : ℚ :=
  pyRound (min (max (crisisScore dist riskData cp / NORMALIZATION_DIVISOR * 100) 0) 100) 1

/-- The value stored per chokepoint id (lines 169-173). -/
structure CpResult where
  name : String
  disruption_risk : ℚ
  crisis_score_raw : ℚ
deriving DecidableEq

/-- compute_chokepoint_disruption (lines 138-179): one entry per registered
chokepoint, keyed by id, in registry order. -/
def computeChokepointDisruption (dist : String → String → Option ℚ)
    (riskData : List (String × RiskEntry)) : List (String × CpResult) :=
  CHOKE_POINTS.map (fun cp =>
    (cp.id, { name := cp.name,
              disruption_risk := disruptionRisk dist riskData cp,
              crisis_score_raw := pyRound (crisisScore dist riskData cp) 4 }))

/-- Lookup modelling chokepoint_risks.get(cp_id) (line 194). The keys of the
map built by compute_chokepoint_disruption are distinct, so first match
equals dict lookup; the stored dicts are non-empty, so the Python truthiness
test of line 195 is equivalent to presence. -/
def lookupAssoc {α : Type} (l : List (String × α)) (k : String) : Option α :=
  (l.find? (fun p => p.1 == k)).map (fun p => p.2)

/-- The resolved member triples (id, name, disruption_risk) of one route
(lines 192-196): members absent from the map are skipped. -/
def resolvedOf (cpRisks : List (String × CpResult)) (route : Route) :
    List (String × String × ℚ) :=
  route.chokepoints.filterMap (fun cid =>
    (lookupAssoc cpRisks cid).map (fun d => (cid, d.name, d.disruption_risk)))

/-- One emitted route report (lines 209-220). The generated insight text
(lines 230-255, pure string formatting of already-computed numbers) is not
modelled. -/
structure RouteReport where
  id : String
  name : String
  chokepoints : List (String × String × ℚ)
  survival_rate : ℚ
  critical_node : String
  max_disruption_risk : ℚ
deriving DecidableEq

/-- compute_route_survival (lines 182-227): routes with no resolved member
are skipped (lines 198-199); the critical node is Python
max(cp_risks, key=lambda x: x[2]), the first member attaining the maximal
disruption (lines 202-203); survival_rate = round(100 - max_disruption, 1)
(line 205). -/
def computeRouteSurvival (cpRisks : List (String × CpResult)) : List RouteReport :=
  ROUTES.filterMap (fun route =>
    match resolvedOf cpRisks route with
    | [] => none
    | r :: rs =>
      some { id := route.id,
             name := route.name,
             chokepoints := r :: rs,
             survival_rate :=
               pyRound (100 - (pickFirstMax (fun t => t.2.2) r rs).2.2) 1,
             critical_node := (pickFirstMax (fun t => t.2.2) r rs).2.1,
             max_disruption_risk := (pickFirstMax (fun t => t.2.2) r rs).2.2 })

/-!
Concrete fixtures, drawn from the test suite of the repository.
-/

/-- Two conflict events for Egypt with severity -10 each
(tests/test_fetch_gdelt.py, boundary example of spec section 8). -/
def egRows : List RawRow :=
  [{ actor1GeoCountryCode := "EG", quadClass := some 4, eventRootCode := some 1,
     goldsteinScale := some (-10), sourceUrl := "http example a" },
   { actor1GeoCountryCode := "EG", quadClass := some 4, eventRootCode := some 1,
     goldsteinScale := some (-10), sourceUrl := "http example b" }]

/-- Three Sudan events of distinct severities (top_news test of
tests/test_fetch_gdelt.py). -/
def sdnRows : List RawRow :=
  [{ actor1GeoCountryCode := "SU", quadClass := some 4, eventRootCode := some 18,
     goldsteinScale := some (-2), sourceUrl := "http example minor" },
   { actor1GeoCountryCode := "SU", quadClass := some 4, eventRootCode := some 18,
     goldsteinScale := some (-10), sourceUrl := "http example severe" },
   { actor1GeoCountryCode := "SU", quadClass := some 4, eventRootCode := some 18,
     goldsteinScale := some (-8), sourceUrl := "http example medium" }]

/-- A protest row (root code 14) with a missing severity for Saudi Arabia. -/
def sa14Row : RawRow :=
  { actor1GeoCountryCode := "SA", quadClass := some 1, eventRootCode := some 14,
    goldsteinScale := none, sourceUrl := "http example sa14" }

/-- Two material-conflict rows for Saudi Arabia with severity -10 each. -/
def saRows : List RawRow :=
  [{ actor1GeoCountryCode := "SA", quadClass := some 4, eventRootCode := some 18,
     goldsteinScale := some (-10), sourceUrl := "http example sa1" },
   { actor1GeoCountryCode := "SA", quadClass := some 4, eventRootCode := some 18,
     goldsteinScale := some (-10), sourceUrl := "http example sa2" }]

/-- Context of the protest-dominated ISR record of
tests/test_kodoku_engine.py. -/
def protestCtx : CountryCtx :=
  { event_codes := some [("14", 9), ("1", 1)],
    keywords := ["protest", "demonstration", "police"] }

/-- Context of the military and maritime ISR record of
tests/test_kodoku_engine.py. -/
def militaryCtx : CountryCtx :=
  { event_codes := some [("19", 5), ("14", 2)],
    keywords := ["missile", "tanker", "strait"] }

/-- risk_data of the protest scenario of test_disruption_attenuated_for_protest. -/
def protestRiskData : List (String × RiskEntry) :=
  [("ISR", { risk_score := 12, ctx := protestCtx })]

/-- risk_data of the military scenario of test_disruption_attenuated_for_protest. -/
def militaryRiskData : List (String × RiskEntry) :=
  [("ISR", { risk_score := 12, ctx := militaryCtx })]

/-- A one-chokepoint disruption map used as a witness input. -/
def hormuzOnlyRisks : List (String × CpResult) :=
  [("hormuz", { name := "Strait of Hormuz", disruption_risk := 40,
                crisis_score_raw := 12 })]

/-- A neutral context carried by witness risk entries. -/
def legacyCtx : CountryCtx := { event_codes := none, keywords := [] }

/-- The record process emits for the two-event Egypt fixture. -/
def egRecord : CountryRecord :=
  { risk_score := 2, count := 2, top_news := "http example a" }

/-- A row whose class code is 4 but whose root code and severity are
missing or non-numeric. -/
def c8Row : RawRow :=
  { actor1GeoCountryCode := "EG", quadClass := some 4, eventRootCode := none,
    goldsteinScale := none, sourceUrl := "http example c8" }

/-- A row whose class code and root code are both missing or non-numeric. -/
def c8BadRow : RawRow :=
  { actor1GeoCountryCode := "EG", quadClass := none, eventRootCode := none,
    goldsteinScale := some 5, sourceUrl := "http example bad" }

/-- The first registered route, used as a witness input. -/
def energyRouteJapan : Route :=
  { id := "middle_east_to_japan", name := "Energy Route (Middle East - Japan)",
    chokepoints := ["hormuz", "malacca", "taiwan"] }

/-- The first registered chokepoint, used as a witness input. -/
def hormuzCp : ChokePoint :=
  { id := "hormuz", name := "Strait of Hormuz", lon := 56.48, lat := 26.56,
    kind := "energy", riskLevel := "high" }

/-- Two Sudan conflict rows with tied severity -10 and distinct URLs. -/
def tieRows : List RawRow :=
  [{ actor1GeoCountryCode := "SU", quadClass := some 4, eventRootCode := some 18,
     goldsteinScale := some (-10), sourceUrl := "http example ua" },
   { actor1GeoCountryCode := "SU", quadClass := some 4, eventRootCode := some 18,
     goldsteinScale := some (-10), sourceUrl := "http example ub" }]

/-- The survivor of the first tieRows row. -/
def tieA : Survivor :=
  { iso3 := "SDN", baseScore := some 10, url := "http example ua" }

/-- The survivor of the second tieRows row. -/
def tieB : Survivor :=
  { iso3 := "SDN", baseScore := some 10, url := "http example ub" }

/-- A constant distance function used as a witness input. -/
def distNear : String → String → Option ℚ := fun _ _ => some 100

/-- A constant distance function farther than distNear. -/
def distFar : String → String → Option ℚ := fun _ _ => some 200

theorem roundHalfEven_ge_floor (x : ℚ) : ⌊x⌋ ≤ roundHalfEven x := by
  unfold roundHalfEven
  split_ifs <;> omega

theorem roundHalfEven_le_floor_add_one (x : ℚ) : roundHalfEven x ≤ ⌊x⌋ + 1 := by
  unfold roundHalfEven
  split_ifs <;> omega

theorem roundHalfEven_mono {x y : ℚ} (h : x ≤ y) :
    roundHalfEven x ≤ roundHalfEven y := by
  rcases lt_or_eq_of_le (Int.floor_le_floor h) with hlt | heq
  · calc roundHalfEven x ≤ ⌊x⌋ + 1 := roundHalfEven_le_floor_add_one x
      _ ≤ ⌊y⌋ := by omega
      _ ≤ roundHalfEven y := roundHalfEven_ge_floor y
  · unfold roundHalfEven
    rw [← heq]
    split_ifs <;> first | omega | linarith

theorem pyRound_mono {x y : ℚ} (n : ℕ) (h : x ≤ y) : pyRound x n ≤ pyRound y n := by
  unfold pyRound
  have hp : (0 : ℚ) ≤ 10 ^ n := by positivity
  have h2 : ((roundHalfEven (x * 10 ^ n) : ℤ) : ℚ) ≤
      ((roundHalfEven (y * 10 ^ n) : ℤ) : ℚ) := by
    exact_mod_cast roundHalfEven_mono (mul_le_mul_of_nonneg_right h hp)
  exact div_le_div_of_nonneg_right h2 hp

theorem pickFirstMax_spec {α : Type} (key : α → ℚ) (x : α) (xs : List α) :
    ∃ l1 l2, x :: xs = l1 ++ pickFirstMax key x xs :: l2 ∧
      (∀ y ∈ l1, key y < key (pickFirstMax key x xs)) ∧
      (∀ y ∈ x :: xs, key y ≤ key (pickFirstMax key x xs)) := by
  induction xs generalizing x with
  | nil =>
    refine ⟨[], [], rfl, by simp, ?_⟩
    intro y hy
    simp only [List.mem_singleton] at hy
    simp [hy, pickFirstMax]
  | cons z zs ih =>
    have hfold : pickFirstMax key x (z :: zs) =
        pickFirstMax key (if key x < key z then z else x) zs := rfl
    by_cases hxz : key x < key z
    · obtain ⟨l1, l2, hdec, hlt, hle⟩ := ih z
      rw [hfold, if_pos hxz]
      refine ⟨x :: l1, l2, by rw [List.cons_append, ← hdec], ?_, ?_⟩
      · intro y hy
        rcases List.mem_cons.mp hy with hy | hy
        · subst hy
          exact lt_of_lt_of_le hxz (hle z (List.mem_cons_self z zs))
        · exact hlt y hy
      · intro y hy
        rcases List.mem_cons.mp hy with hy | hy
        · subst hy
          exact le_of_lt (lt_of_lt_of_le hxz (hle z (List.mem_cons_self z zs)))
        · exact hle y hy
    · obtain ⟨l1, l2, hdec, hlt, hle⟩ := ih x
      rw [hfold, if_neg hxz]
      cases l1 with
      | nil =>
        simp only [List.nil_append] at hdec
        have hx : x = pickFirstMax key x zs := (List.cons_eq_cons.mp hdec).1
        refine ⟨[], z :: zs, ?_, by simp, ?_⟩
        · rw [List.nil_append]
          conv_lhs => rw [hx]
        · have hxle : key x ≤ key (pickFirstMax key x zs) :=
            hle x (List.mem_cons_self x zs)
          intro y hy
          rcases List.mem_cons.mp hy with hy | hy
          · subst hy; exact hxle
          rcases List.mem_cons.mp hy with hy | hy
          · subst hy
            exact le_trans (le_of_not_lt hxz) hxle
          · exact hle y (List.mem_cons.mpr (Or.inr hy))
      | cons a l1t =>
        have ha : x = a := (List.cons_eq_cons.mp hdec).1
        subst ha
        have htl : zs = l1t ++ pickFirstMax key x zs :: l2 :=
          (List.cons_eq_cons.mp hdec).2
        refine ⟨x :: z :: l1t, l2, ?_, ?_, ?_⟩
        · show x :: z :: zs = x :: z :: l1t ++ pickFirstMax key x zs :: l2
          conv_lhs => rw [htl]
          simp
        · intro y hy
          have hxlt : key x < key (pickFirstMax key x zs) :=
            hlt x (List.mem_cons_self x l1t)
          rcases List.mem_cons.mp hy with hy | hy
          · subst hy; exact hxlt
          rcases List.mem_cons.mp hy with hy | hy
          · subst hy; exact lt_of_le_of_lt (le_of_not_lt hxz) hxlt
          · exact hlt y (List.mem_cons.mpr (Or.inr hy))
        · intro y hy
          have hxle : key x ≤ key (pickFirstMax key x zs) :=
            hle x (List.mem_cons_self x zs)
          rcases List.mem_cons.mp hy with hy | hy
          · subst hy; exact hxle
          rcases List.mem_cons.mp hy with hy | hy
          · subst hy; exact le_trans (le_of_not_lt hxz) hxle
          · exact hle y (List.mem_cons.mpr (Or.inr hy))

theorem pickFirstMax_mem {α : Type} (key : α → ℚ) (x : α) (xs : List α) :
    pickFirstMax key x xs ∈ x :: xs := by
  obtain ⟨l1, l2, hdec, -, -⟩ := pickFirstMax_spec key x xs
  rw [hdec]
  exact List.mem_append.mpr (Or.inr (List.mem_cons_self _ _))

theorem roundHalfEven_intCast (n : ℤ) : roundHalfEven (n : ℚ) = n := by
  unfold roundHalfEven
  rw [Int.floor_intCast, sub_self]
  norm_num

theorem pyRound_intCast (n : ℤ) (k : ℕ) : pyRound (n : ℚ) k = n := by
  unfold pyRound
  have h : ((n : ℚ) * 10 ^ k) = ((n * 10 ^ k : ℤ) : ℚ) := by push_cast; ring
  rw [h, roundHalfEven_intCast]
  push_cast
  field_simp

theorem pyRound_two : pyRound 2 4 = 2 := by
  have h := pyRound_intCast 2 4
  norm_num at h
  exact h

theorem pyRound_zero : pyRound 0 1 = 0 := by
  have h := pyRound_intCast 0 1
  norm_num at h
  exact h

theorem pyRound_hundred : pyRound 100 1 = 100 := by
  have h := pyRound_intCast 100 1
  norm_num at h
  exact h

theorem groupOf_eq_filter (rows : List RawRow) (k : String) :
    groupOf rows k = (survivors rows).filter (fun s => s.iso3 == k) := rfl

theorem processCountry_char {rows : List RawRow} {k : String} {rec : CountryRecord} :
    processCountry rows k = some rec ↔
      2 ≤ groupRisk rows k ∧
      rec = { risk_score := pyRound (groupRisk rows k) 4,
              count := (groupOf rows k).length,
              top_news := topNewsOf (groupOf rows k) } := by
  unfold processCountry
  split_ifs with h
  · simp only [Option.some.injEq]
    exact ⟨fun he => ⟨h, he.symm⟩, fun he => he.2.symm⟩
  · simp only [false_iff, not_and]
    intro h2
    exact absurd h2 h

theorem processCountry_mem_process {rows : List RawRow} {k : String}
    {rec : CountryRecord} (h : processCountry rows k = some rec) :
    (k, rec) ∈ process rows := by
  have hr2 : 2 ≤ groupRisk rows k := (processCountry_char.mp h).1
  have hne : groupOf rows k ≠ [] := by
    intro hempty
    rw [groupRisk, hempty] at hr2
    norm_num at hr2
  obtain ⟨s, hs⟩ := List.exists_mem_of_ne_nil _ hne
  have hsf := List.mem_filter.mp (groupOf_eq_filter rows k ▸ hs)
  have hsk : s.iso3 = k := by simpa using hsf.2
  have hk : k ∈ ((survivors rows).map (fun s => s.iso3)).dedup :=
    List.mem_dedup.mpr (List.mem_map.mpr ⟨s, hsf.1, hsk⟩)
  exact List.mem_filterMap.mpr ⟨k, hk, by rw [h]; rfl⟩

theorem mem_process_processCountry {rows : List RawRow} {k : String}
    {rec : CountryRecord} (h : (k, rec) ∈ process rows) :
    processCountry rows k = some rec := by
  obtain ⟨k', hk', hsome⟩ := List.mem_filterMap.mp h
  cases hpc : processCountry rows k' with
  | none => rw [hpc] at hsome; exact Option.noConfusion hsome
  | some rec' =>
    rw [hpc] at hsome
    simp only [Option.map_some', Option.some.injEq, Prod.mk.injEq] at hsome
    obtain ⟨hkk, hrr⟩ := hsome
    rw [← hkk, hpc, hrr]

theorem routes_id_inj :
    ∀ a ∈ ROUTES, ∀ b ∈ ROUTES, a.id = b.id → a = b := by decide

theorem contribution_nonneg {dist : String → String → Option ℚ} {cp : ChokePoint}
    {p : String × RiskEntry} (h : 0 ≤ p.2.risk_score) :
    0 ≤ contribution dist cp p := by
  unfold contribution
  cases hd : dist cp.id p.1 with
  | none => exact le_refl 0
  | some d =>
    dsimp only
    split_ifs with hlt
    · apply mul_nonneg h
      apply div_nonneg _ (by norm_num [INFLUENCE_RADIUS_KM])
      rw [INFLUENCE_RADIUS_KM] at hlt ⊢
      linarith
    · exact le_refl 0

theorem contribution_risk_mono {dist : String → String → Option ℚ} {cp : ChokePoint}
    {k : String} {c : CountryCtx} {r s : ℚ} (h : r ≤ s) :
    contribution dist cp (k, { risk_score := r, ctx := c }) ≤
      contribution dist cp (k, { risk_score := s, ctx := c }) := by
  unfold contribution
  cases hd : dist cp.id k with
  | none => exact le_refl 0
  | some d =>
    dsimp only
    split_ifs with hlt
    · apply mul_le_mul_of_nonneg_right h
      apply div_nonneg _ (by norm_num [INFLUENCE_RADIUS_KM])
      rw [INFLUENCE_RADIUS_KM] at hlt ⊢
      linarith
    · exact le_refl 0

theorem contribution_dist_anti {dist dist' : String → String → Option ℚ}
    {cp : ChokePoint} {p : String × RiskEntry} (h0 : 0 ≤ p.2.risk_score)
    (hd : dist cp.id p.1 = dist' cp.id p.1 ∨
      ∃ d d', dist cp.id p.1 = some d ∧ dist' cp.id p.1 = some d' ∧ d ≤ d') :
    contribution dist' cp p ≤ contribution dist cp p := by
  rcases hd with he | ⟨d, d', h1, h2, hdd⟩
  · unfold contribution
    rw [← he]
  · unfold contribution
    rw [h1, h2]
    rw [INFLUENCE_RADIUS_KM]
    dsimp only
    split_ifs with ha hb hb
    · apply mul_le_mul_of_nonneg_left _ h0
      apply div_le_div_of_nonneg_right (by linarith) (by norm_num)
    · exact absurd (lt_of_le_of_lt hdd ha) hb
    · apply mul_nonneg h0
      apply div_nonneg (by linarith) (by norm_num)
    · exact le_refl 0

theorem crisisScore_risk_mono {dist : String → String → Option ℚ} {cp : ChokePoint}
    (l1 l2 : List (String × RiskEntry)) (k : String) (c : CountryCtx)
    {r s : ℚ} (h : r ≤ s) :
    crisisScore dist (l1 ++ (k, { risk_score := r, ctx := c }) :: l2) cp ≤
      crisisScore dist (l1 ++ (k, { risk_score := s, ctx := c }) :: l2) cp := by
  unfold crisisScore
  rw [List.map_append, List.map_cons, List.sum_append, List.sum_cons,
      List.map_append, List.map_cons, List.sum_append, List.sum_cons]
  have hc := @contribution_risk_mono dist cp k c _ _ h
  linarith

theorem crisisScore_dist_anti {dist dist' : String → String → Option ℚ}
    {cp : ChokePoint} {riskData : List (String × RiskEntry)}
    (h0 : ∀ p ∈ riskData, 0 ≤ p.2.risk_score)
    (hd : ∀ iso3, dist cp.id iso3 = dist' cp.id iso3 ∨
      ∃ d d', dist cp.id iso3 = some d ∧ dist' cp.id iso3 = some d' ∧ d ≤ d') :
    crisisScore dist' riskData cp ≤ crisisScore dist riskData cp := by
  unfold crisisScore
  apply List.sum_le_sum
  intro p hp
  exact contribution_dist_anti (h0 p hp) (hd p.1)

theorem disruptionRisk_of_crisis_le {dist dist' : String → String → Option ℚ}
    {d1 d2 : List (String × RiskEntry)} {cp : ChokePoint}
    (h : crisisScore dist d1 cp ≤ crisisScore dist' d2 cp) :
    disruptionRisk dist d1 cp ≤ disruptionRisk dist' d2 cp := by
  unfold disruptionRisk
  apply pyRound_mono
  apply min_le_min _ (le_refl 100)
  apply max_le_max _ (le_refl 0)
  rw [NORMALIZATION_DIVISOR]
  apply mul_le_mul_of_nonneg_right _ (by norm_num)
  exact div_le_div_of_nonneg_right h (by norm_num)

theorem disruptionRisk_nonneg (dist : String → String → Option ℚ)
    (riskData : List (String × RiskEntry)) (cp : ChokePoint) :
    0 ≤ disruptionRisk dist riskData cp := by
  unfold disruptionRisk
  have h0 : (0 : ℚ) ≤ min (max (crisisScore dist riskData cp / NORMALIZATION_DIVISOR * 100) 0) 100 :=
    le_min (le_max_right _ 0) (by norm_num)
  calc (0 : ℚ) = pyRound 0 1 := pyRound_zero.symm
    _ ≤ _ := pyRound_mono 1 h0

theorem disruptionRisk_le_100 (dist : String → String → Option ℚ)
    (riskData : List (String × RiskEntry)) (cp : ChokePoint) :
    disruptionRisk dist riskData cp ≤ 100 := by
  unfold disruptionRisk
  calc pyRound (min (max (crisisScore dist riskData cp / NORMALIZATION_DIVISOR * 100) 0) 100) 1
      ≤ pyRound 100 1 := pyRound_mono 1 (min_le_right _ 100)
    _ = 100 := pyRound_hundred

theorem groupOf_egRows : groupOf egRows "EGY" =
    [{ iso3 := "EGY", baseScore := some 10, url := "http example a" },
     { iso3 := "EGY", baseScore := some 10, url := "http example b" }] := by decide

theorem groupRisk_egRows : groupRisk egRows "EGY" = 2 := by
  rw [groupRisk, groupOf_egRows]
  norm_num

theorem topNews_egRows : topNewsOf (groupOf egRows "EGY") = "http example a" := by decide

theorem processCountry_egRows :
    processCountry egRows "EGY" =
      some { risk_score := 2, count := 2, top_news := "http example a" } := by
  apply processCountry_char.mpr
  refine ⟨le_of_eq groupRisk_egRows.symm, ?_⟩
  rw [groupRisk_egRows, pyRound_two, topNews_egRows, groupOf_egRows]
  rfl

theorem process_egRows :
    process egRows = [("EGY", { risk_score := 2, count := 2, top_news := "http example a" })] := by
  rw [process]
  have h1 : (survivors egRows).map (fun s => s.iso3) = ["EGY", "EGY"] := by decide
  have h2 : (["EGY", "EGY"] : List String).dedup = ["EGY"] := by decide
  rw [h1, h2]
  simp [processCountry_egRows]

theorem processJson_egRows : processJson egRows =
    [("EGY", [("risk_score", JVal.num 2), ("count", JVal.intv 2),
              ("top_news", JVal.strv ("http example a"))])] := by
  rw [processJson, process_egRows]
  rfl

theorem sum_filter_le (q : String × ℕ → Bool) (codes : List (String × ℕ)) :
    ((codes.filter q).map (fun p => p.2)).sum ≤ (codes.map (fun p => p.2)).sum := by
  induction codes with
  | nil => simp
  | cons p ps ih =>
    rw [List.filter_cons]
    split_ifs with h
    · simp only [List.map_cons, List.sum_cons]
      omega
    · simp only [List.map_cons, List.sum_cons]
      omega

theorem protestOf_le_totalOf (codes : List (String × ℕ)) :
    protestOf codes ≤ totalOf codes :=
  sum_filter_le _ codes

theorem militaryOf_le_totalOf (codes : List (String × ℕ)) :
    militaryOf codes ≤ totalOf codes :=
  sum_filter_le _ codes

/-- C1: the context multiplier of a country record is exactly 0.1 when more
than half of its event code occurrences have root code 14 and no keyword is
maritime; exactly 2.0 when the military root code 19 occurs and at least one
keyword is maritime; and exactly 1.0 in every other case, including an
absent or empty event_codes field; these are the only three outcomes. -/
theorem C1_context_multiplier (c : CountryCtx) :
    (compute_context_multiplier c = 1/10 ∨ compute_context_multiplier c = 1 ∨
      compute_context_multiplier c = 2)
    ∧ (c.event_codes = none → compute_context_multiplier c = 1)
    ∧ (∀ codes, c.event_codes = some codes → totalOf codes = 0 →
        compute_context_multiplier c = 1)
    ∧ (∀ codes, c.event_codes = some codes → totalOf codes < 2 * protestOf codes →
        hasMaritimeKw c = false → compute_context_multiplier c = 1/10)
    ∧ (∀ codes, c.event_codes = some codes → 0 < militaryOf codes →
        hasMaritimeKw c = true → compute_context_multiplier c = 2)
    ∧ (∀ codes, c.event_codes = some codes → 0 < totalOf codes →
        ¬(totalOf codes < 2 * protestOf codes ∧ hasMaritimeKw c = false) →
        ¬(0 < militaryOf codes ∧ hasMaritimeKw c = true) →
        compute_context_multiplier c = 1) := by
  refine ⟨?_, ?_, ?_, ?_, ?_, ?_⟩
  · rcases hc : c.event_codes with _ | codes
    · right; left
      simp [compute_context_multiplier, hc]
    · simp only [compute_context_multiplier, hc]
      split_ifs
      · right; left; rfl
      · left; rfl
      · right; right; rfl
      · right; left; rfl
  · intro h
    simp [compute_context_multiplier, h]
  · intro codes hsome h0
    simp [compute_context_multiplier, hsome, h0]
  · intro codes hsome hlt hmar
    have hne : ¬ totalOf codes = 0 := by
      have := protestOf_le_totalOf codes
      omega
    simp only [compute_context_multiplier, hsome]
    rw [if_neg hne, if_pos ⟨hlt, hmar⟩]
    rfl
  · intro codes hsome hmil hmar
    have hne : ¬ totalOf codes = 0 := by
      have := militaryOf_le_totalOf codes
      omega
    have hnota : ¬(totalOf codes < 2 * protestOf codes ∧ hasMaritimeKw c = false) := by
      rintro ⟨-, hf⟩
      rw [hmar] at hf
      exact Bool.noConfusion hf
    simp only [compute_context_multiplier, hsome]
    rw [if_neg hne, if_neg hnota, if_pos ⟨hmil, hmar⟩]
    rfl
  · intro codes hsome hpos hna hnb
    have hne : ¬ totalOf codes = 0 := by omega
    simp only [compute_context_multiplier, hsome]
    rw [if_neg hne, if_neg hna, if_neg hnb]

theorem C1_context_multiplier_witness :
    compute_context_multiplier protestCtx = 1/10 ∧
    compute_context_multiplier militaryCtx = 2 ∧
    compute_context_multiplier legacyCtx = 1 :=
  ⟨(C1_context_multiplier protestCtx).2.2.2.1 [("14", 9), ("1", 1)] rfl
      (by decide) (by decide),
   (C1_context_multiplier militaryCtx).2.2.2.2.1 [("19", 5), ("14", 2)] rfl
      (by decide) (by decide),
   (C1_context_multiplier legacyCtx).2.1 rfl⟩

/-- C2: the claim that a country contribution is
risk_score x context_multiplier x decay fails on the engine source: the
engine of the script reads only risk_score, so the protest-dominated and the
military-maritime ISR inputs of the test suite (whose modelled multipliers
are 0.1 and 2.0) produce identical disruption maps for every distance
function, while the repository test suite asserts the protest scenario must
score strictly lower at Suez. -/
theorem C2_engine_ignores_context :
    (∀ dist, computeChokepointDisruption dist protestRiskData =
        computeChokepointDisruption dist militaryRiskData)
    ∧ (∀ dist cp, disruptionRisk dist protestRiskData cp =
        disruptionRisk dist militaryRiskData cp)
    ∧ compute_context_multiplier protestCtx = 1/10
    ∧ compute_context_multiplier militaryCtx = 2 :=
  ⟨fun _ => rfl, fun _ _ => rfl, rfl, rfl⟩

/-- C3 counterexample: on the two-event Egypt input the emitted record for
EGY carries exactly the keys risk_score, count and top_news; no event_codes
and no keywords field is present, contradicting the claim as stated. -/
theorem C3_event_codes_counterexample :
    processJson egRows =
      [("EGY", [("risk_score", JVal.num 2), ("count", JVal.intv 2),
                ("top_news", JVal.strv ("http example a"))])]
    ∧ ((processJson egRows).map (fun p => p.2.map Prod.fst)) =
        [["risk_score", "count", "top_news"]] := by
  refine ⟨processJson_egRows, ?_⟩
  rw [processJson_egRows]
  rfl

/-- C3 amended: every record emitted by the aggregator carries exactly the
fields risk_score, count and top_news, in this order; in particular no
event_codes histogram and no keywords set is emitted. -/
theorem C3_emitted_fields :
    ∀ (rows : List RawRow) (p : String × List (String × JVal)),
      p ∈ processJson rows → p.2.map Prod.fst = ["risk_score", "count", "top_news"] := by
  intro rows p hp
  obtain ⟨q, hq, hpq⟩ := List.mem_map.mp hp
  rw [← hpq]
  rfl

theorem C3_emitted_fields_witness :
    (("EGY", [("risk_score", JVal.num 2), ("count", JVal.intv 2),
              ("top_news", JVal.strv ("http example a"))]) :
        String × List (String × JVal)).2.map Prod.fst
      = ["risk_score", "count", "top_news"] :=
  C3_emitted_fields egRows _ (by simp [processJson_egRows])

/-- C6: every emitted country record has risk_score at least 2.0; the
threshold is inclusive (a group whose unrounded score reaches 2.0 is
emitted) and any group scoring below 2.0 is dropped. -/
theorem C6_risk_threshold :
    (∀ (rows : List RawRow) (k : String) (rec : CountryRecord),
        (k, rec) ∈ process rows → 2 ≤ rec.risk_score)
    ∧ (∀ (rows : List RawRow) (k : String), 2 ≤ groupRisk rows k →
        ∃ rec, (k, rec) ∈ process rows)
    ∧ (∀ (rows : List RawRow) (k : String) (rec : CountryRecord),
        groupRisk rows k < 2 → (k, rec) ∉ process rows) := by
  refine ⟨?_, ?_, ?_⟩
  · intro rows k rec hmem
    obtain ⟨h2, hrec⟩ := processCountry_char.mp (mem_process_processCountry hmem)
    rw [hrec]
    calc (2 : ℚ) = pyRound 2 4 := pyRound_two.symm
      _ ≤ pyRound (groupRisk rows k) 4 := pyRound_mono 4 h2
  · intro rows k h2
    exact ⟨_, processCountry_mem_process (processCountry_char.mpr ⟨h2, rfl⟩)⟩
  · intro rows k rec hlt hmem
    have h2 := (processCountry_char.mp (mem_process_processCountry hmem)).1
    linarith

theorem C6_risk_threshold_witness :
    (2 : ℚ) ≤ egRecord.risk_score
    ∧ ∃ rec, ("EGY", rec) ∈ process egRows :=
  ⟨C6_risk_threshold.1 egRows "EGY" egRecord (by simp [process_egRows, egRecord]),
   C6_risk_threshold.2.1 egRows "EGY" (le_of_eq groupRisk_egRows.symm)⟩

/-- C8 counterexample: a row whose root code and severity are non-numeric
but whose class code equals 4 passes the conflict filter and survives the
whole filter chain, contradicting the claim that an event with a non-numeric
class, root or severity field thereby fails the conflict filter. -/
theorem C8_nonnumeric_counterexample :
    c8Row.eventRootCode = none ∧ c8Row.goldsteinScale = none
    ∧ conflictKeep c8Row = true
    ∧ survivors [c8Row] =
        [{ iso3 := "EGY", baseScore := none, url := "http example c8" }] :=
  ⟨rfl, rfl, by decide, by decide⟩

/-- C8 amended: a non-numeric class, root or severity field is coerced to a
missing value and a missing field never satisfies its conflict-filter
comparison, so an event whose class and root are both non-numeric fails the
conflict filter (a missing severity alone does not exclude a row whose class
or root matches); the aggregation is total and maps empty input to an empty
result rather than an error. -/
theorem C8_missing_never_matches :
    (∀ r : RawRow, r.quadClass = none → r.eventRootCode = none →
        conflictKeep r = false)
    ∧ process ([] : List RawRow) = [] ∧ processJson ([] : List RawRow) = [] := by
  refine ⟨?_, rfl, rfl⟩
  intro r h1 h2
  simp [conflictKeep, h1, h2]

theorem C8_missing_never_matches_witness :
    conflictKeep c8BadRow = false ∧ process ([] : List RawRow) = [] :=
  ⟨C8_missing_never_matches.1 c8BadRow rfl rfl, C8_missing_never_matches.2.1⟩

/-- C9: for every input, compute_chokepoint_disruption returns exactly one
entry per registered chokepoint, keyed by the eight registry ids in registry
order; every member of every registered route is one of those ids, so
compute_route_survival emits a report for all six registered routes and the
route-omission branch is never taken. -/
theorem C9_registry_totality :
    ∀ (dist : String → String → Option ℚ) (riskData : List (String × RiskEntry)),
      (computeChokepointDisruption dist riskData).map Prod.fst = REGISTERED_CP_IDS
      ∧ (ROUTES.all (fun route => route.chokepoints.all
          (fun c => REGISTERED_CP_IDS.contains c))) = true
      ∧ (computeRouteSurvival (computeChokepointDisruption dist riskData)).map
          RouteReport.id = ROUTES.map Route.id :=
  fun _ _ => ⟨rfl, by decide, rfl⟩

/-- C4: for every route whose resolved member list is non-empty, the emitted
report has survival_rate = round(100 - max member disruption, 1) and its
critical node is the name of the first resolved member attaining that
maximum; a route none of whose members resolve is omitted from the output. -/
theorem C4_route_survival (cpRisks : List (String × CpResult)) (route : Route)
    (hroute : route ∈ ROUTES) :
    (resolvedOf cpRisks route = [] →
      ∀ rep ∈ computeRouteSurvival cpRisks, rep.id ≠ route.id)
    ∧ (∀ r rs, resolvedOf cpRisks route = r :: rs →
        ∃ rep ∈ computeRouteSurvival cpRisks, rep.id = route.id
          ∧ ∃ c, c ∈ r :: rs
              ∧ rep.critical_node = c.2.1
              ∧ rep.survival_rate = pyRound (100 - c.2.2) 1
              ∧ rep.max_disruption_risk = c.2.2
              ∧ (∀ y ∈ r :: rs, y.2.2 ≤ c.2.2)
              ∧ ∃ l1 l2, r :: rs = l1 ++ c :: l2 ∧ ∀ y ∈ l1, y.2.2 < c.2.2) := by
  constructor
  · intro hempty rep hrep hid
    obtain ⟨route', hroute', hsome⟩ := List.mem_filterMap.mp hrep
    rcases hres : resolvedOf cpRisks route' with _ | ⟨r, rs⟩
    · rw [hres] at hsome
      exact Option.noConfusion hsome
    · rw [hres] at hsome
      have hrepid : rep.id = route'.id := by
        injection hsome with h
        rw [← h]
      have hsame : route' = route :=
        routes_id_inj route' hroute' route hroute (by rw [← hrepid, hid])
      rw [hsame, hempty] at hres
      exact List.noConfusion hres
  · intro r rs hres
    obtain ⟨l1, l2, hdec, hlt, hle⟩ := pickFirstMax_spec (fun t => t.2.2) r rs
    refine ⟨{ id := route.id, name := route.name, chokepoints := r :: rs,
              survival_rate :=
                pyRound (100 - (pickFirstMax (fun t => t.2.2) r rs).2.2) 1,
              critical_node := (pickFirstMax (fun t => t.2.2) r rs).2.1,
              max_disruption_risk := (pickFirstMax (fun t => t.2.2) r rs).2.2 },
            List.mem_filterMap.mpr ⟨route, hroute, by rw [hres]⟩,
            rfl,
            pickFirstMax (fun t => t.2.2) r rs,
            pickFirstMax_mem (fun t => t.2.2) r rs,
            rfl, rfl, rfl, hle, l1, l2, hdec, hlt⟩

theorem C4_route_survival_witness :
    ∃ rep ∈ computeRouteSurvival hormuzOnlyRisks, rep.id = energyRouteJapan.id
      ∧ ∃ c, c ∈ (("hormuz", "Strait of Hormuz", (40 : ℚ)) :: [])
          ∧ rep.critical_node = c.2.1
          ∧ rep.survival_rate = pyRound (100 - c.2.2) 1
          ∧ rep.max_disruption_risk = c.2.2
          ∧ (∀ y ∈ (("hormuz", "Strait of Hormuz", (40 : ℚ)) :: []), y.2.2 ≤ c.2.2)
          ∧ ∃ l1 l2, (("hormuz", "Strait of Hormuz", (40 : ℚ)) :: []) = l1 ++ c :: l2
              ∧ ∀ y ∈ l1, y.2.2 < c.2.2 :=
  (C4_route_survival hormuzOnlyRisks energyRouteJapan (by decide)).2
    ("hormuz", "Strait of Hormuz", 40) [] (by decide)

/-- C5: holding all other inputs fixed, a chokepoint disruption risk is
non-decreasing in any single country risk_score and non-increasing in that
country distance from the chokepoint (for non-negative risk scores), and for
every input it lies in the interval from 0 to 100. -/
theorem C5_disruption_monotone_bounded :
    (∀ (dist : String → String → Option ℚ) (riskData : List (String × RiskEntry))
        (cp : ChokePoint),
      0 ≤ disruptionRisk dist riskData cp ∧ disruptionRisk dist riskData cp ≤ 100)
    ∧ (∀ (dist : String → String → Option ℚ) (l1 l2 : List (String × RiskEntry))
          (k : String) (c : CountryCtx) (r s : ℚ) (cp : ChokePoint), r ≤ s →
        disruptionRisk dist (l1 ++ (k, { risk_score := r, ctx := c }) :: l2) cp ≤
          disruptionRisk dist (l1 ++ (k, { risk_score := s, ctx := c }) :: l2) cp)
    ∧ (∀ (dist dist' : String → String → Option ℚ)
          (riskData : List (String × RiskEntry)) (cp : ChokePoint),
        (∀ p ∈ riskData, 0 ≤ p.2.risk_score) →
        (∀ iso3, dist cp.id iso3 = dist' cp.id iso3 ∨
          ∃ d d', dist cp.id iso3 = some d ∧ dist' cp.id iso3 = some d' ∧ d ≤ d') →
        disruptionRisk dist' riskData cp ≤ disruptionRisk dist riskData cp) :=
  ⟨fun dist data cp => ⟨disruptionRisk_nonneg dist data cp, disruptionRisk_le_100 dist data cp⟩,
   fun _ l1 l2 k c _ _ _ h => disruptionRisk_of_crisis_le (crisisScore_risk_mono l1 l2 k c h),
   fun _ _ _ _ h0 hd => disruptionRisk_of_crisis_le (crisisScore_dist_anti h0 hd)⟩

theorem C5_disruption_monotone_bounded_witness :
    disruptionRisk distNear
        ([] ++ ("EGY", { risk_score := 3, ctx := legacyCtx }) :: []) hormuzCp ≤
      disruptionRisk distNear
        ([] ++ ("EGY", { risk_score := 5, ctx := legacyCtx }) :: []) hormuzCp
    ∧ disruptionRisk distFar [("EGY", { risk_score := 3, ctx := legacyCtx })] hormuzCp ≤
      disruptionRisk distNear [("EGY", { risk_score := 3, ctx := legacyCtx })] hormuzCp :=
  ⟨C5_disruption_monotone_bounded.2.1 distNear [] [] "EGY" legacyCtx 3 5 hormuzCp
      (by decide),
   C5_disruption_monotone_bounded.2.2 distNear distFar
      [("EGY", { risk_score := 3, ctx := legacyCtx })] hormuzCp
      (by decide)
      (fun _ => Or.inr ⟨100, 200, rfl, rfl, by decide⟩)⟩

/-- C7 counterexample: the first-seen tie clause is not a property of the
program. On the two tied Sudan rows the valid group is [tieA, tieB]; the
descending-sort contract of the default sort kind admits the result
[tieB, tieA] as well, under which groupby.first emits the URL of tieB, not
the URL of the first-seen maximal row tieA that the claim (and the fixed
tie order of the model) designates. -/
theorem C7_tie_order_counterexample :
    validOf (groupOf tieRows "SDN") = [tieA, tieB]
    ∧ IsDescSortOf (validOf (groupOf tieRows "SDN")) [tieB, tieA]
    ∧ topNewsOfSorted [tieB, tieA] = "http example ub"
    ∧ topNewsOf (groupOf tieRows "SDN") = "http example ua"
    ∧ ("http example ub" : String) ≠ "http example ua" :=
  ⟨by decide, ⟨by decide, by decide⟩, by decide, by decide, by decide⟩

/-- C7 amended: the top_news of every emitted country record is the source
URL of a record attaining the maximal BaseScore among the rows of the group
with a defined BaseScore (hence of the single highest-BaseScore record
whenever the maximum is uniquely attained), and the empty string when no
such row exists; moreover every admissible result of the descending sort,
whatever its tie order, makes groupby.first select the URL of such a
maximal record, so the choice among tied maxima is not determined by the
program. -/
theorem C7_top_news_argmax :
    (∀ (rows : List RawRow) (k : String) (rec : CountryRecord),
        (k, rec) ∈ process rows →
        (validOf (groupOf rows k) = [] ∧ rec.top_news = "")
        ∨ ∃ r ∈ validOf (groupOf rows k), rec.top_news = r.url
            ∧ ∀ s ∈ validOf (groupOf rows k),
                s.baseScore.getD 0 ≤ r.baseScore.getD 0)
    ∧ (∀ (g sorted : List Survivor), IsDescSortOf g sorted →
        (sorted = [] ∧ g = [])
        ∨ ∃ r ∈ g, topNewsOfSorted sorted = r.url
            ∧ ∀ s ∈ g, s.baseScore.getD 0 ≤ r.baseScore.getD 0) := by
  constructor
  · intro rows k rec hmem
    obtain ⟨-, hrec⟩ := processCountry_char.mp (mem_process_processCountry hmem)
    have htn : rec.top_news = topNewsOf (groupOf rows k) := by rw [hrec]
    obtain hval | ⟨r0, rs, hval⟩ :
        validOf (groupOf rows k) = [] ∨
          ∃ r0 rs, validOf (groupOf rows k) = r0 :: rs := by
      cases validOf (groupOf rows k) with
      | nil => exact Or.inl rfl
      | cons a b => exact Or.inr ⟨a, b, rfl⟩
    · left
      refine ⟨hval, ?_⟩
      rw [htn]
      simp only [topNewsOf]
      rw [hval]
    · right
      obtain ⟨l1, l2, hdec, hlt, hle⟩ :=
        pickFirstMax_spec (fun s => s.baseScore.getD 0) r0 rs
      refine ⟨pickFirstMax (fun s => s.baseScore.getD 0) r0 rs, ?_, ?_, ?_⟩
      · rw [hval]
        exact pickFirstMax_mem _ r0 rs
      · rw [htn]
        simp only [topNewsOf]
        rw [hval]
      · intro s hs
        rw [hval] at hs
        exact hle s hs
  · intro g sorted hsort
    obtain ⟨hperm, hsorted⟩ := hsort
    cases sorted with
    | nil =>
      left
      exact ⟨rfl, hperm.eq_nil⟩
    | cons r rest =>
      right
      refine ⟨r, hperm.mem_iff.mpr (List.mem_cons_self r rest), rfl, ?_⟩
      intro s hsg
      rcases List.mem_cons.mp (hperm.mem_iff.mp hsg) with h | h
      · rw [h]
      · exact (List.sorted_cons.mp hsorted).1 s h

theorem C7_top_news_argmax_witness :
    ((validOf (groupOf egRows "EGY") = [] ∧ egRecord.top_news = "")
      ∨ ∃ r ∈ validOf (groupOf egRows "EGY"), egRecord.top_news = r.url
          ∧ ∀ s ∈ validOf (groupOf egRows "EGY"),
              s.baseScore.getD 0 ≤ r.baseScore.getD 0)
    ∧ ((([tieB, tieA] : List Survivor) = [] ∧ ([tieA, tieB] : List Survivor) = [])
      ∨ ∃ r ∈ ([tieA, tieB] : List Survivor), topNewsOfSorted [tieB, tieA] = r.url
          ∧ ∀ s ∈ ([tieA, tieB] : List Survivor),
              s.baseScore.getD 0 ≤ r.baseScore.getD 0) :=
  ⟨C7_top_news_argmax.1 egRows "EGY" egRecord (by simp [process_egRows, egRecord]),
   C7_top_news_argmax.2 [tieA, tieB] [tieB, tieA] ⟨by decide, by decide⟩⟩

/-- C10: a raw event with root code 14 but a non-numeric severity passes the
conflict filter and stays in the group of its country: it adds one to the
emitted count, leaves risk_score unchanged (the missing severity is skipped
in the sum), and leaves top_news unchanged, hence is never selected. -/
theorem C10_missing_severity (pre post : List RawRow) (r : RawRow) (k : String)
    (hroot : r.eventRootCode = some 14)
    (hgold : r.goldsteinScale = none)
    (hcode : stripStr r.actor1GeoCountryCode ≠ "")
    (hdict : dictGet FIPS_TO_ISO3_entries (stripStr r.actor1GeoCountryCode) = some k)
    (htarget : TARGET_ISO3.contains k = true) :
    ({ iso3 := k, baseScore := none, url := r.sourceUrl } : Survivor) ∈
        groupOf (pre ++ r :: post) k
    ∧ groupRisk (pre ++ r :: post) k = groupRisk (pre ++ post) k
    ∧ topNewsOf (groupOf (pre ++ r :: post) k) = topNewsOf (groupOf (pre ++ post) k)
    ∧ processCountry (pre ++ r :: post) k =
        (processCountry (pre ++ post) k).map
          (fun rec => { risk_score := rec.risk_score, count := rec.count + 1,
                        top_news := rec.top_news }) := by
  have hck : conflictKeep r = true := by
    simp [conflictKeep, hroot]
  have hs : survivorOf r = some { iso3 := k, baseScore := none, url := r.sourceUrl } := by
    simp [survivorOf, hck, hdict, htarget, hgold, hcode]
    simpa using htarget
  have hsurv : survivors (pre ++ r :: post) =
      survivors pre ++ { iso3 := k, baseScore := none, url := r.sourceUrl } ::
        survivors post := by
    simp [survivors, List.filterMap_append, List.filterMap_cons, hs]
  have hsurv2 : survivors (pre ++ post) = survivors pre ++ survivors post := by
    simp [survivors, List.filterMap_append]
  have hgrp : groupOf (pre ++ r :: post) k =
      groupOf pre k ++ ({ iso3 := k, baseScore := none, url := r.sourceUrl } : Survivor) ::
        groupOf post k := by
    rw [groupOf, hsurv, List.filter_append, List.filter_cons]
    simp [groupOf]
  have hgrp2 : groupOf (pre ++ post) k = groupOf pre k ++ groupOf post k := by
    rw [groupOf, hsurv2, List.filter_append]
    rfl
  have hrisk : groupRisk (pre ++ r :: post) k = groupRisk (pre ++ post) k := by
    rw [groupRisk, groupRisk, hgrp, hgrp2]
    simp [List.map_append, List.sum_append]
  have hval : validOf (groupOf (pre ++ r :: post) k) =
      validOf (groupOf (pre ++ post) k) := by
    rw [hgrp, hgrp2]
    simp [validOf, List.filter_append, List.filter_cons]
  have htn : topNewsOf (groupOf (pre ++ r :: post) k) =
      topNewsOf (groupOf (pre ++ post) k) := by
    unfold topNewsOf
    rw [hval]
  have hlen : (groupOf (pre ++ r :: post) k).length =
      (groupOf (pre ++ post) k).length + 1 := by
    rw [hgrp, hgrp2]
    simp [List.length_append]
    omega
  refine ⟨?_, hrisk, htn, ?_⟩
  · rw [hgrp]
    exact List.mem_append.mpr (Or.inr (List.mem_cons_self _ _))
  · unfold processCountry
    rw [hrisk]
    split_ifs with h2
    · simp only [Option.map_some']
      rw [hlen, htn]
    · rfl

theorem C10_missing_severity_witness :
    ({ iso3 := "SAU", baseScore := none, url := "http example sa14" } : Survivor) ∈
        groupOf ([] ++ sa14Row :: saRows) "SAU"
    ∧ groupRisk ([] ++ sa14Row :: saRows) "SAU" = groupRisk ([] ++ saRows) "SAU"
    ∧ topNewsOf (groupOf ([] ++ sa14Row :: saRows) "SAU") =
        topNewsOf (groupOf ([] ++ saRows) "SAU")
    ∧ processCountry ([] ++ sa14Row :: saRows) "SAU" =
        (processCountry ([] ++ saRows) "SAU").map
          (fun rec => { risk_score := rec.risk_score, count := rec.count + 1,
                        top_news := rec.top_news }) :=
  C10_missing_severity [] saRows sa14Row "SAU" rfl rfl (by decide) (by decide) (by decide)

end WorldDashboard
